import Mathlib

/-!
Verification of the StarryPlanner request-validation and event-extraction
pipeline (`src/validation/*.py`, `src/logic_from_notebook.py`).

The Python code is shallowly embedded: strings are `String` / `List Char`,
wall-clock instants are integers (seconds for the rate limiter, minutes for
event instants), dictionaries with optional keys become structures of
`Option String`, and raised exceptions become `Except` / explicit error
values.  Mutable validator state (the rate-limiter timestamp list) is
threaded explicitly: every operation that can mutate it returns the new
state.  The external pieces (the LLM extraction call, the `pytz` zone
database, Python's `datetime` library) are abstracted: extraction results
are taken as an input of the pipeline function, the zone database becomes a
fixed finite table, and date arithmetic uses the standard civil-calendar
day-number formula.  Digits are modelled as ASCII digits.
-/

namespace StarryPlanner

/-! ### Character classes

`isWs` models Python's whitespace notion (used both by `str.strip()` and by
the regex `\s`): ASCII whitespace, the C1 separators 0x1c-0x1f, NEL 0x85,
NBSP 0xa0 and the Unicode space code points.  `isCtrl` is exactly the
control-character set removed by `InputValidator._sanitize`:
0x00-0x08, 0x0b, 0x0c, 0x0e-0x1f, 0x7f. -/

def isWs (c : Char) : Bool :=
  let n := c.toNat
  n == 32 || (9 ≤ n && n ≤ 13) || (28 ≤ n && n ≤ 31) || n == 133 || n == 160 ||
  n == 5760 || (8192 ≤ n && n ≤ 8202) || n == 8232 || n == 8233 ||
  n == 8239 || n == 8287 || n == 12288

def isCtrl (c : Char) : Bool :=
  let n := c.toNat
  n ≤ 8 || n == 11 || n == 12 || (14 ≤ n && n ≤ 31) || n == 127

/-! ### `InputValidator._sanitize`

The Python code does, in order:
1. `text.strip()` — trim leading and trailing whitespace;
2. `re.sub(r'[\x00-\x08\x0b\x0c\x0e-\x1f\x7f]', '', text)` — delete
   control characters;
3. `re.sub(r'\s+', ' ', text)` — replace each maximal whitespace run by a
   single space (modelled by a scanner whose flag records whether we are
   inside a whitespace run). -/

def stripChars (l : List Char) : List Char :=
  ((l.dropWhile isWs).reverse.dropWhile isWs).reverse

def removeCtrl (l : List Char) : List Char :=
  l.filter (fun c => !isCtrl c)

def collapseWsAux : Bool → List Char → List Char
  | _, [] => []
  | inRun, c :: cs =>
    if isWs c then
      if inRun then collapseWsAux true cs
      else ' ' :: collapseWsAux true cs
    else c :: collapseWsAux false cs

def collapseWs (l : List Char) : List Char :=
  collapseWsAux false l

def sanitizeStr (s : String) : String :=
  ⟨collapseWs (removeCtrl (stripChars s.data))⟩

/-- `_sanitize` on a possibly-absent input: `None` yields the empty
string. -/
def sanitize : Option String → String
  | none => ""
  | some s => sanitizeStr s

/-! #### Lemmas about the whitespace-collapsing scanner -/

theorem collapseWsAux_mem {c : Char} : ∀ {b : Bool} {l : List Char},
    c ∈ collapseWsAux b l → c = ' ' ∨ c ∈ l := by
  intro b l
  induction l generalizing b with
  | nil => intro h; simp [collapseWsAux] at h
  | cons d ds ih =>
    intro h
    rw [collapseWsAux] at h
    by_cases hd : isWs d
    · rw [if_pos hd] at h
      by_cases hb : b
      · rw [if_pos hb] at h
        rcases ih h with h | h
        · exact Or.inl h
        · exact Or.inr (List.mem_cons_of_mem _ h)
      · rw [if_neg hb] at h
        rcases List.mem_cons.mp h with h | h
        · exact Or.inl h
        · rcases ih h with h | h
          · exact Or.inl h
          · exact Or.inr (List.mem_cons_of_mem _ h)
    · rw [if_neg hd] at h
      rcases List.mem_cons.mp h with h | h
      · exact Or.inr (h ▸ List.mem_cons_self _ _)
      · rcases ih h with h | h
        · exact Or.inl h
        · exact Or.inr (List.mem_cons_of_mem _ h)

theorem collapseWsAux_true_head : ∀ {l : List Char} {c : Char},
    (collapseWsAux true l).head? = some c → isWs c = false := by
  intro l
  induction l with
  | nil => intro c h; simp [collapseWsAux] at h
  | cons d ds ih =>
    intro c h
    rw [collapseWsAux] at h
    by_cases hd : isWs d
    · rw [if_pos hd, if_pos rfl] at h
      exact ih h
    · rw [if_neg hd] at h
      simp at h
      rw [← h]
      simpa using hd

theorem collapseWsAux_chain' : ∀ (b : Bool) (l : List Char),
    List.Chain' (fun a c => ¬(isWs a = true ∧ isWs c = true)) (collapseWsAux b l) := by
  intro b l
  induction l generalizing b with
  | nil => simp [collapseWsAux]
  | cons d ds ih =>
    rw [collapseWsAux]
    by_cases hd : isWs d
    · rw [if_pos hd]
      by_cases hb : b
      · rw [if_pos hb]; exact ih true
      · rw [if_neg hb]
        rw [List.chain'_cons']
        refine ⟨?_, ih true⟩
        intro y hy hcon
        have := collapseWsAux_true_head hy
        rw [this] at hcon
        exact absurd hcon.2 (by simp)
    · rw [if_neg hd]
      rw [List.chain'_cons']
      refine ⟨?_, ih false⟩
      intro y _ hcon
      exact absurd hcon.1 hd

theorem collapseWsAux_true_eq_nil : ∀ {l : List Char},
    collapseWsAux true l = [] ↔ ∀ x ∈ l, isWs x = true := by
  intro l
  induction l with
  | nil => simp [collapseWsAux]
  | cons d ds ih =>
    rw [collapseWsAux]
    by_cases hd : isWs d
    · rw [if_pos hd, if_pos rfl]
      simp [ih, hd]
    · rw [if_neg hd]
      simp [hd]

theorem getLast?_cons_of_ne_nil {d : Char} {ds : List Char} (h : ds ≠ []) :
    (d :: ds).getLast? = ds.getLast? := by
  match ds with
  | [] => exact absurd rfl h
  | e :: es => exact List.getLast?_cons_cons

theorem getLast?_all_ws {l : List Char} {c : Char}
    (hall : ∀ x ∈ l, isWs x = true) (h : l.getLast? = some c) : isWs c = true := by
  have hc : c ∈ l := by
    rcases List.mem_getLast?_eq_getLast (by simpa using h : c ∈ l.getLast?) with ⟨hne, hg⟩
    exact hg ▸ List.getLast_mem hne
  exact hall c hc

theorem collapseWsAux_getLast_not_ws : ∀ {b : Bool} {l : List Char} {c : Char},
    (∀ d, l.getLast? = some d → isWs d = false) →
    (collapseWsAux b l).getLast? = some c → isWs c = false := by
  intro b l
  induction l generalizing b with
  | nil => intro c _ h; simp [collapseWsAux] at h
  | cons d ds ih =>
    intro c hl h
    rw [collapseWsAux] at h
    by_cases hd : isWs d
    · have hws : ¬(∀ x ∈ d :: ds, isWs x = true) := by
        intro hall
        have : isWs ((d :: ds).getLast (List.cons_ne_nil d ds)) = true :=
          getLast?_all_ws hall (List.getLast?_eq_getLast_of_ne_nil _)
        have hfalse := hl _ (List.getLast?_eq_getLast_of_ne_nil (List.cons_ne_nil d ds))
        rw [hfalse] at this
        exact absurd this (by simp)
      have hds_ne : ds ≠ [] := by
        intro hnil
        exact hws (by simp [hnil, hd])
      have htail : ∀ e, ds.getLast? = some e → isWs e = false := by
        intro e he
        exact hl e ((getLast?_cons_of_ne_nil hds_ne) ▸ he)
      rw [if_pos hd] at h
      by_cases hb : b
      · rw [if_pos hb] at h
        exact ih htail h
      · rw [if_neg hb] at h
        by_cases hnil : collapseWsAux true ds = []
        · exfalso
          exact hws (by
            intro x hx
            rcases List.mem_cons.mp hx with hx | hx
            · exact hx ▸ hd
            · exact collapseWsAux_true_eq_nil.mp hnil x hx)
        · rw [getLast?_cons_of_ne_nil hnil] at h
          exact ih htail h
    · rw [if_neg hd] at h
      by_cases hnil : collapseWsAux false ds = []
      · rw [hnil] at h
        simp at h
        rw [← h]
        simpa using hd
      · have hds_ne : ds ≠ [] := by
          intro hnil2
          exact hnil (by simp [hnil2, collapseWsAux])
        have htail : ∀ e, ds.getLast? = some e → isWs e = false := by
          intro e he
          exact hl e ((getLast?_cons_of_ne_nil hds_ne) ▸ he)
        rw [getLast?_cons_of_ne_nil hnil] at h
        exact ih htail h

theorem collapseWs_head_not_ws {l : List Char} {c : Char}
    (hl : ∀ d, l.head? = some d → isWs d = false)
    (h : (collapseWs l).head? = some c) : isWs c = false := by
  match l with
  | [] => simp [collapseWs, collapseWsAux] at h
  | d :: ds =>
    have hd : isWs d = false := hl d rfl
    rw [collapseWs, collapseWsAux, if_neg (by simp [hd])] at h
    simp at h
    rw [← h]
    exact hd

/-! #### Lemmas about `stripChars` -/

theorem head_dropWhile_not {p : Char → Bool} : ∀ {l : List Char} {c : Char},
    (l.dropWhile p).head? = some c → p c = false := by
  intro l
  induction l with
  | nil => intro c h; simp [List.dropWhile] at h
  | cons d ds ih =>
    intro c h
    rw [List.dropWhile_cons] at h
    by_cases hp : p d
    · rw [if_pos hp] at h; exact ih h
    · rw [if_neg hp] at h
      simp at h
      rw [← h]
      simpa using hp

theorem stripChars_mem {l : List Char} {c : Char} (h : c ∈ stripChars l) : c ∈ l := by
  rw [stripChars] at h
  rw [List.mem_reverse] at h
  have hsub : (((l.dropWhile isWs).reverse).dropWhile isWs).Sublist
      ((l.dropWhile isWs).reverse) := List.dropWhile_sublist isWs
  have h2 := hsub.mem h
  rw [List.mem_reverse] at h2
  have hsub2 : (l.dropWhile isWs).Sublist l := List.dropWhile_sublist isWs
  exact hsub2.mem h2

theorem stripChars_head_not_ws {l : List Char} {c : Char}
    (h : (stripChars l).head? = some c) : isWs c = false := by
  obtain ⟨t, ht⟩ :=
    (List.dropWhile_suffix isWs :
      ((l.dropWhile isWs).reverse).dropWhile isWs <:+ (l.dropWhile isWs).reverse)
  have hexp : l.dropWhile isWs = stripChars l ++ t.reverse := by
    have h2 := congrArg List.reverse ht
    rw [List.reverse_append, List.reverse_reverse] at h2
    simp only [stripChars]
    exact h2.symm
  match hs : stripChars l with
  | [] => rw [hs] at h; simp at h
  | e :: es =>
    rw [hs] at h
    simp at h
    rw [hs] at hexp
    have : (l.dropWhile isWs).head? = some e := by rw [hexp]; rfl
    rw [← h]
    exact head_dropWhile_not this

theorem stripChars_getLast_not_ws {l : List Char} {c : Char}
    (h : (stripChars l).getLast? = some c) : isWs c = false := by
  rw [stripChars, List.getLast?_reverse] at h
  exact head_dropWhile_not h

/-! ### Errors (`validation/exceptions.py`)

Each hard error carries the internal diagnostic string and the user-facing
string (`ValidationError.__init__`). -/

inductive VErr where
  | inputTooLong (message userMessage : String)
  | rateLimitExceeded (message userMessage : String)
  | invalidEventData (message userMessage : String)
  | invalidTimezone (message userMessage : String)
deriving DecidableEq

/-- Soft-warning messages: the three format strings of the source,
represented by their shape together with the numeric values interpolated
into them. -/
inductive WarnMsg where
  | titleTooLong (len maxLen : Nat)
  | farFuture (years : Nat)
  | durationDays (days : Int)
deriving DecidableEq

/-- `ValidationWarning` dataclass: an immutable message record. -/
structure ValidationWarning where
  message : WarnMsg
deriving DecidableEq

/-! ### `InputValidator` (`validation/input_validator.py`)

`InputLimits` constants, then the three steps of
`validate_and_sanitize`.  The mutable `_request_timestamps` list is passed
in and returned explicitly; `time.time()` is the explicit `now` argument
(integer seconds). -/

def MAX_INPUT_LENGTH : Nat := 500

def RATE_LIMIT_REQUESTS : Nat := 15

def RATE_LIMIT_WINDOW_SECONDS : Int := 60

/-- `InputValidator._check_length`: `some` error iff the sanitized text is
longer than the limit. -/
def check_length (text : String) : Option VErr :=
  let n := text.length
  if MAX_INPUT_LENGTH < n then
    some (.inputTooLong s!"Input is {n} characters"
      s!"Please keep your request under {MAX_INPUT_LENGTH} characters.")
  else
    none

/-- `InputValidator._check_rate_limit`: prune timestamps outside the
window, fail when the pruned window is full (the pruning is a mutation that
survives the raise), otherwise record `now`.  Returns the error (if any)
together with the new timestamp list. -/
def check_rate_limit (timestamps : List Int) (now : Int) : Option VErr × List Int :=
  let windowStart := now - RATE_LIMIT_WINDOW_SECONDS
  let inWindow := timestamps.filter (fun ts => windowStart < ts)
  if RATE_LIMIT_REQUESTS ≤ inWindow.length then
    let count := inWindow.length
    let oldestInWindow := inWindow.headD 0
    let waitSeconds := (oldestInWindow - windowStart) + 1
    (some (.rateLimitExceeded
        s!"Rate limit: {count} requests in {RATE_LIMIT_WINDOW_SECONDS}s"
        s!"Too many requests. Please wait {waitSeconds} seconds."),
      inWindow)
  else
    (none, inWindow ++ [now])

/-- `InputValidator.validate_and_sanitize`: sanitize, then length check,
then rate limit.  A length failure propagates before the rate limiter
runs, so the timestamp list is returned untouched in that case. -/
def validate_and_sanitize (timestamps : List Int) (now : Int)
    (userInput : Option String) : Except VErr String × List Int :=
  let sanitized := sanitize userInput
  match check_length sanitized with
  | some e => (.error e, timestamps)
  | none =>
    match check_rate_limit timestamps now with
    | (some e, timestamps') => (.error e, timestamps')
    | (none, timestamps') => (.ok sanitized, timestamps')

/-- `n` consecutive calls of `_check_rate_limit` at the same instant:
`some` final timestamp list when all are admitted, `none` when any call
fails. -/
def admitIter : Nat → List Int → Int → Option (List Int)
  | 0, timestamps, _ => some timestamps
  | n + 1, timestamps, now =>
    match check_rate_limit timestamps now with
    | (none, timestamps') => admitIter n timestamps' now
    | (some _, _) => none

/-! ### `EventValidator` (`validation/event_validator.py`) -/

def MAX_TITLE_LENGTH : Nat := 100

def MAX_FUTURE_DAYS : Nat := 365 * 2

def MAX_DURATION_DAYS : Nat := 7

/-- GPT-extracted slot map.  The required keys are {title, date, start,
end, tz}, the optional ones {location, notes, recurrence}; a key can be
absent (`none`) or present (`some`, possibly the empty string).  `end` is a
reserved word in Lean, hence the field name `end_`. -/
structure Slots where
  title : Option String
  date : Option String
  start : Option String
  end_ : Option String
  tz : Option String
  location : Option String
  notes : Option String
  recurrence : Option String
deriving DecidableEq

/-- Python truthiness of `slots.get(f)` for a string-valued slot: present
and non-empty. -/
def fieldPresent (o : Option String) : Bool :=
  !(o.getD "").isEmpty

/-- The required fields whose value is missing or empty, in the order of
the source's `required` list. -/
def missing_fields (s : Slots) : List String :=
  (if fieldPresent s.title then [] else ["title"]) ++
  (if fieldPresent s.date then [] else ["date"]) ++
  (if fieldPresent s.start then [] else ["start"]) ++
  (if fieldPresent s.end_ then [] else ["end"]) ++
  (if fieldPresent s.tz then [] else ["tz"])

/-- All five required fields present and non-empty. -/
def requiredOk (s : Slots) : Bool :=
  fieldPresent s.title && fieldPresent s.date && fieldPresent s.start &&
  fieldPresent s.end_ && fieldPresent s.tz

/-- `EventValidator._check_required_fields`. -/
def check_required_fields (s : Slots) : Option VErr :=
  let missing := missing_fields s
  if missing.isEmpty then none
  else
    let joined := String.intercalate ", " missing
    some (.invalidEventData s!"Missing fields: {joined}"
      "I couldn't understand all the details. Please include the event title, date, and times.")

def num2 (a b : Char) : Nat :=
  (a.toNat - 48) * 10 + (b.toNat - 48)

def num4 (a b c d : Char) : Nat :=
  (((a.toNat - 48) * 10 + (b.toNat - 48)) * 10 + (c.toNat - 48)) * 10 + (d.toNat - 48)

/-- The regex `^\d{4}-\d{2}-\d{2}$` (ASCII digits).  Python's `$` also
matches just before one trailing newline, so a date string carrying a
single trailing `'\n'` passes this check too (and then fails `strptime`,
which rejects the unconverted trailing character). -/
def dateFormatOk (s : String) : Bool :=
  match s.data with
  | [a, b, c, d, h1, e, f, h2, g, i] =>
    a.isDigit && b.isDigit && c.isDigit && d.isDigit && h1 == '-' &&
    e.isDigit && f.isDigit && h2 == '-' && g.isDigit && i.isDigit
  | [a, b, c, d, h1, e, f, h2, g, i, nl] =>
    a.isDigit && b.isDigit && c.isDigit && d.isDigit && h1 == '-' &&
    e.isDigit && f.isDigit && h2 == '-' && g.isDigit && i.isDigit && nl == '\n'
  | _ => false

def isLeapYear (y : Nat) : Bool :=
  (y % 4 == 0 && y % 100 != 0) || y % 400 == 0

def daysInMonth (y m : Nat) : Nat :=
  match m with
  | 1 => 31 | 2 => if isLeapYear y then 29 else 28 | 3 => 31 | 4 => 30
  | 5 => 31 | 6 => 30 | 7 => 31 | 8 => 31 | 9 => 30 | 10 => 31
  | 11 => 30 | 12 => 31
  | _ => 0

/-- `datetime.strptime(date_str, '%Y-%m-%d')` succeeds: a real calendar
date (year at least 1 — Python's `MINYEAR`).  `strptime` consumes the whole
string, so the trailing-newline form admitted by the regex fails here. -/
def dateRealOk (s : String) : Bool :=
  match s.data with
  | [a, b, c, d, _, e, f, _, g, i] =>
    let y := num4 a b c d
    let m := num2 e f
    let dd := num2 g i
    1 ≤ y && 1 ≤ m && m ≤ 12 && 1 ≤ dd && dd ≤ daysInMonth y m
  | _ => false

/-- `EventValidator._check_date_format`. -/
def check_date_format (dateStr : String) : Option VErr :=
  if !dateFormatOk dateStr then
    some (.invalidEventData s!"Invalid date format: {dateStr}"
      "I couldn't understand the date. Please try again with a clearer date.")
  else if !dateRealOk dateStr then
    some (.invalidEventData s!"Invalid date: {dateStr}"
      "That date doesn't exist. Please check the date and try again.")
  else
    none

/-- The regex `^\d{2}:\d{2}$` (ASCII digits).  Python's `$` also matches
just before one trailing newline, so `"13:00\n"` passes this check. -/
def timeFormatOk (s : String) : Bool :=
  match s.data with
  | [a, b, c, d, e] => a.isDigit && b.isDigit && c == ':' && d.isDigit && e.isDigit
  | [a, b, c, d, e, nl] =>
    a.isDigit && b.isDigit && c == ':' && d.isDigit && e.isDigit && nl == '\n'
  | _ => false

/-- The hour parsed by `map(int, time_str.split(':'))` — `int` ignores
surrounding whitespace, so only the digit positions matter. -/
def timeHour (s : String) : Nat :=
  match s.data with
  | a :: b :: _ => num2 a b
  | _ => 0

/-- The minute parsed by `map(int, time_str.split(':'))`; a trailing
newline in the minute part is stripped by `int`. -/
def timeMinute (s : String) : Nat :=
  match s.data with
  | _ :: _ :: _ :: d :: e :: _ => num2 d e
  | _ => 0

/-- `0 <= hour <= 23 and 0 <= minute <= 59`. -/
def timeRangeOk (s : String) : Bool :=
  timeHour s ≤ 23 && timeMinute s ≤ 59

/-- User message of the time-format failure, naming the offending field. -/
def timeNotUnderstoodMsg (fieldName : String) : String :=
  s!"I couldn't understand the {fieldName} time. Please try again."

/-- User message of the time-range failure, naming the offending field. -/
def timeInvalidMsg (fieldName : String) : String :=
  s!"The {fieldName} time doesn't look right. Please use a valid time."

/-- `EventValidator._check_time_format`. -/
def check_time_format (timeStr fieldName : String) : Option VErr :=
  if !timeFormatOk timeStr then
    some (.invalidEventData s!"Invalid {fieldName} time format: {timeStr}"
      (timeNotUnderstoodMsg fieldName))
  else if !timeRangeOk timeStr then
    some (.invalidEventData s!"Invalid {fieldName} time: {timeStr}"
      (timeInvalidMsg fieldName))
  else
    none

/-- The IANA zone database consulted by `pytz.timezone`, abstracted to a
fixed finite table of zone names with their UTC offsets in minutes (DST is
not modelled; the claims under verification never depend on the offset of a
particular zone, only on both ends of one event getting the same one). -/
def iana_zones : List (String × Int) :=
  [("UTC", 0), ("America/Toronto", -240), ("America/New_York", -240),
   ("Europe/London", 60), ("Asia/Tokyo", 540)]

def tzKnown (tz : String) : Bool :=
  (iana_zones.lookup tz).isSome

def tzOffsetMinutes (tz : String) : Int :=
  (iana_zones.lookup tz).getD 0

/-- `EventValidator._check_timezone`. -/
def check_timezone (tzStr : String) : Option VErr :=
  if tzKnown tzStr then none
  else
    some (.invalidTimezone s!"Unknown timezone: {tzStr}"
      "Invalid timezone detected. Please try again.")

/-- `EventValidator._check_title_length` (soft check). -/
def check_title_length (title : String) : Option ValidationWarning :=
  let n := title.length
  if MAX_TITLE_LENGTH < n then some ⟨.titleTooLong n MAX_TITLE_LENGTH⟩
  else none

/-- `EventValidator.validate_event`: the hard checks in source order, each
propagating its error immediately, then the soft title check. -/
def validate_event (s : Slots) : Except VErr (Slots × List ValidationWarning) :=
  match check_required_fields s with
  | some e => .error e
  | none =>
    match check_date_format (s.date.getD "") with
    | some e => .error e
    | none =>
      match check_time_format (s.start.getD "") "start" with
      | some e => .error e
      | none =>
        match check_time_format (s.end_.getD "") "end" with
        | some e => .error e
        | none =>
          match check_timezone (s.tz.getD "") with
          | some e => .error e
          | none =>
            match check_title_length (s.title.getD "") with
            | some w => .ok (s, [w])
            | none => .ok (s, [])

/-- `EventValidator.check_time_constraints`: instants are minutes;
`datetime.now(...)` is the explicit `now` argument.  `duration.days` is
Python's flooring day count of a timedelta. -/
def check_time_constraints (now startDt endDt : Int) : List ValidationWarning :=
  let maxFuture := now + (MAX_FUTURE_DAYS : Int) * 1440
  let futureWarnings : List ValidationWarning :=
    if maxFuture < startDt then
      [⟨.farFuture (MAX_FUTURE_DAYS / 365)⟩]
    else []
  let duration := endDt - startDt
  let durationWarnings : List ValidationWarning :=
    if (MAX_DURATION_DAYS : Int) * 1440 < duration then
      [⟨.durationDays (duration.fdiv 1440)⟩]
    else []
  futureWarnings ++ durationWarnings

/-- `sanity_check_event` (`validation/sanity_check.py`): disabled, always
`None`. -/
def sanity_check_event (_ev : Slots) : Option ValidationWarning :=
  none

/-! ### Date and time parsing (`logic_from_notebook.py`, step 5)

`datetime.fromisoformat(f"{date}T{time}")` followed by `tz.localize(...)`
is modelled on validated strings: the civil date becomes a day number (the
standard proleptic-Gregorian formula, day 0 = 1970-01-01), the clock time
becomes minutes, and localizing subtracts the zone's UTC offset. -/

def daysFromCivil (y m d : Int) : Int :=
  let y1 := if m ≤ 2 then y - 1 else y
  let era := (if 0 ≤ y1 then y1 else y1 - 399).fdiv 400
  let yoe := y1 - era * 400
  let mp := (m + 9).emod 12
  let doy := (153 * mp + 2).fdiv 5 + d - 1
  let doe := yoe * 365 + yoe.fdiv 4 - yoe.fdiv 100 + doy
  era * 146097 + doe - 719468

/-- Day number of a validated `YYYY-MM-DD` string (0 for malformed input,
which validation rules out). -/
def parseDateDays (s : String) : Int :=
  match s.data with
  | [a, b, c, d, _, e, f, _, g, i] =>
    daysFromCivil (num4 a b c d) (num2 e f) (num2 g i)
  | _ => 0

/-- Minutes past midnight of a validated `HH:MM` string. -/
def parseTimeMinutes (s : String) : Int :=
  (timeHour s * 60 + timeMinute s : Nat)

/-- The zoned instant (UTC minutes) of slot `date` combined with a clock
time, localized in slot `tz` — the `tz.localize(datetime.fromisoformat(...))`
of the source.  Validation guarantees the digit positions read here.  (A
time string accepted only through the regex's trailing-newline allowance
makes the source's `fromisoformat` raise an unhandled `ValueError`, ending
that run with no event; the model reads the digit positions instead, so its
successful runs are a superset of the source's — harmless for properties
quantified over successful runs.) -/
def slotInstant (ev : Slots) (timeField : Option String) : Int :=
  parseDateDays (ev.date.getD "") * 1440 + parseTimeMinutes (timeField.getD "")
    - tzOffsetMinutes (ev.tz.getD "")

def slot_start_dt (ev : Slots) : Int := slotInstant ev ev.start

def slot_end_dt (ev : Slots) : Int := slotInstant ev ev.end_

/-! ### The pipeline (`build_event_dict_from_prompt`) -/

/-- The final event dictionary built for the calendar API.  The
`recurrence` key is only present (`some`) when a non-empty recurrence slot
was extracted. -/
structure GEvent where
  summary : String
  description : String
  start : Int
  end_ : Int
  recurrence : Option (List String)
deriving DecidableEq

/-- Step 6 of the pipeline: `if end_dt < start_dt: start_dt, end_dt =
end_dt, start_dt` — the start instant after the silent swap. -/
def swappedStart (ev : Slots) : Int :=
  if slot_end_dt ev < slot_start_dt ev then slot_end_dt ev else slot_start_dt ev

/-- The end instant after the silent swap. -/
def swappedEnd (ev : Slots) : Int :=
  if slot_end_dt ev < slot_start_dt ev then slot_start_dt ev else slot_end_dt ev

/-- Step 8: `ev.get("notes", "Added via AI Scheduler")`, then
`"\nLocation: {location}"` appended when the location slot is truthy. -/
def eventDescription (ev : Slots) : String :=
  let baseDescription :=
    match ev.notes with
    | some n => n
    | none => "Added via AI Scheduler"
  let location := ev.location.getD ""
  if !location.isEmpty then baseDescription ++ "\nLocation: " ++ location
  else baseDescription

/-- `rrule.upper().startswith("RRULE:")` — the guard of step 9, modelled on
the character list. -/
def rruleUpperStarts (r : String) : Bool :=
  match r.data.map Char.toUpper with
  | 'R' :: 'R' :: 'U' :: 'L' :: 'E' :: ':' :: _ => true
  | _ => false

/-- Step 9: wrap a truthy recurrence slot as a one-element list, adding the
`RRULE:` prefix unless the value already starts with it (case-insensitive
test via `.upper()`). -/
def eventRecurrence (ev : Slots) : Option (List String) :=
  match ev.recurrence with
  | some r =>
    if !r.isEmpty then
      some [if rruleUpperStarts r then r else "RRULE:" ++ r]
    else none
  | none => none

/-- The event dictionary assembled from validated slots (steps 6, 8, 9). -/
def assembledEvent (ev : Slots) : GEvent :=
  { summary := ev.title.getD "",
    description := eventDescription ev,
    start := swappedStart ev,
    end_ := swappedEnd ev,
    recurrence := eventRecurrence ev }

/-- `build_event_dict_from_prompt`, with the LLM extraction call abstracted
away: `extracted` stands for the slot map `extract_slots` returned, and the
two clocks (`time.time()` seconds for the rate limiter, wall-clock minutes
for the constraint check) are explicit arguments.  Steps, as in the source:
input gate, event validation, datetime construction, end-before-start swap,
time-constraint warnings, event assembly, recurrence normalization,
disabled sanity check. -/
def build_event_dict_from_prompt (timestamps : List Int) (nowSec nowMin : Int)
    (prompt : Option String) (extracted : Slots) :
    Except VErr (GEvent × List ValidationWarning) × List Int :=
  match validate_and_sanitize timestamps nowSec prompt with
  | (.error e, timestamps') => (.error e, timestamps')
  | (.ok _sanitizedPrompt, timestamps') =>
    match validate_event extracted with
    | .error e => (.error e, timestamps')
    | .ok (ev, warnings) =>
      let warnings2 :=
        warnings ++ check_time_constraints nowMin (swappedStart ev) (swappedEnd ev)
      let warnings3 :=
        match sanity_check_event ev with
        | some w => warnings2 ++ [w]
        | none => warnings2
      (.ok (assembledEvent ev, warnings3), timestamps')

/-! ### Characterization lemmas for the individual checks -/

/-- All five hard checks of `validate_event` as one boolean. -/
def hardChecksOk (s : Slots) : Bool :=
  requiredOk s && (dateFormatOk (s.date.getD "") && dateRealOk (s.date.getD "")) &&
  (timeFormatOk (s.start.getD "") && timeRangeOk (s.start.getD "")) &&
  (timeFormatOk (s.end_.getD "") && timeRangeOk (s.end_.getD "")) &&
  tzKnown (s.tz.getD "")

theorem missing_fields_nil_iff {s : Slots} :
    missing_fields s = [] ↔ requiredOk s = true := by
  by_cases h1 : fieldPresent s.title <;> by_cases h2 : fieldPresent s.date <;>
    by_cases h3 : fieldPresent s.start <;> by_cases h4 : fieldPresent s.end_ <;>
    by_cases h5 : fieldPresent s.tz <;>
    simp [missing_fields, requiredOk, h1, h2, h3, h4, h5]

theorem check_required_fields_none_iff {s : Slots} :
    check_required_fields s = none ↔ requiredOk s = true := by
  rw [check_required_fields, ← missing_fields_nil_iff]
  by_cases h : (missing_fields s).isEmpty
  · simp [h, List.isEmpty_iff.mp h]
  · simp [h, (by simpa using h : ¬ missing_fields s = [])]

theorem check_required_fields_fail {s : Slots} (h : requiredOk s = false) :
    ∃ i, check_required_fields s = some (.invalidEventData i
      "I couldn't understand all the details. Please include the event title, date, and times.") := by
  rw [check_required_fields]
  have hne : ¬ (missing_fields s).isEmpty = true := by
    rw [List.isEmpty_iff]
    intro hnil
    rw [missing_fields_nil_iff.mp hnil] at h
    exact absurd h (by simp)
  rw [if_neg hne]
  exact ⟨_, rfl⟩

theorem check_date_format_none_iff {d : String} :
    check_date_format d = none ↔ (dateFormatOk d = true ∧ dateRealOk d = true) := by
  rw [check_date_format]
  by_cases h1 : dateFormatOk d <;> by_cases h2 : dateRealOk d <;> simp [h1, h2]

theorem check_date_format_fail {d : String}
    (h : ¬(dateFormatOk d = true ∧ dateRealOk d = true)) :
    ∃ i u, check_date_format d = some (.invalidEventData i u) := by
  rw [check_date_format]
  by_cases h1 : dateFormatOk d
  · by_cases h2 : dateRealOk d
    · exact absurd ⟨h1, h2⟩ h
    · simp [h1, h2]
  · simp [h1]

theorem check_time_format_none_iff {t f : String} :
    check_time_format t f = none ↔ (timeFormatOk t = true ∧ timeRangeOk t = true) := by
  rw [check_time_format]
  by_cases h1 : timeFormatOk t <;> by_cases h2 : timeRangeOk t <;> simp [h1, h2]

theorem check_time_format_fail {t : String} (f : String)
    (h : ¬(timeFormatOk t = true ∧ timeRangeOk t = true)) :
    ∃ i, check_time_format t f = some (.invalidEventData i (timeNotUnderstoodMsg f)) ∨
      check_time_format t f = some (.invalidEventData i (timeInvalidMsg f)) := by
  rw [check_time_format]
  by_cases h1 : timeFormatOk t
  · by_cases h2 : timeRangeOk t
    · exact absurd ⟨h1, h2⟩ h
    · rw [if_neg (by simp [h1]), if_pos (by simp [h2])]
      exact ⟨_, Or.inr rfl⟩
  · rw [if_pos (by simp [h1])]
    exact ⟨_, Or.inl rfl⟩

theorem check_timezone_none_iff {z : String} :
    check_timezone z = none ↔ tzKnown z = true := by
  rw [check_timezone]
  by_cases h : tzKnown z <;> simp [h]

theorem check_timezone_fail {z : String} (h : tzKnown z = false) :
    ∃ i, check_timezone z = some (.invalidTimezone i
      "Invalid timezone detected. Please try again.") := by
  rw [check_timezone]
  simp [h]

theorem validate_event_ok_of_hard {s : Slots} (h : hardChecksOk s = true) :
    validate_event s = .ok (s, (check_title_length (s.title.getD "")).toList) := by
  rw [hardChecksOk] at h
  simp only [Bool.and_eq_true] at h
  obtain ⟨⟨⟨⟨h1, h2⟩, h3⟩, h4⟩, h5⟩ := h
  rw [validate_event,
    check_required_fields_none_iff.mpr h1,
    check_date_format_none_iff.mpr ⟨h2.1, h2.2⟩,
    check_time_format_none_iff.mpr ⟨h3.1, h3.2⟩,
    check_time_format_none_iff.mpr ⟨h4.1, h4.2⟩,
    check_timezone_none_iff.mpr h5]
  match hw : check_title_length (s.title.getD "") with
  | some w => simp [hw, Option.toList]
  | none => simp [hw, Option.toList]

theorem validate_event_ok_inv {s t : Slots} {w : List ValidationWarning}
    (h : validate_event s = .ok (t, w)) :
    t = s ∧ w = (check_title_length (s.title.getD "")).toList ∧ hardChecksOk s = true := by
  rw [validate_event] at h
  match h1 : check_required_fields s with
  | some e => rw [h1] at h; exact absurd h (by simp)
  | none =>
  rw [h1] at h
  match h2 : check_date_format (s.date.getD "") with
  | some e => rw [h2] at h; exact absurd h (by simp)
  | none =>
  rw [h2] at h
  match h3 : check_time_format (s.start.getD "") "start" with
  | some e => rw [h3] at h; exact absurd h (by simp)
  | none =>
  rw [h3] at h
  match h4 : check_time_format (s.end_.getD "") "end" with
  | some e => rw [h4] at h; exact absurd h (by simp)
  | none =>
  rw [h4] at h
  match h5 : check_timezone (s.tz.getD "") with
  | some e => rw [h5] at h; exact absurd h (by simp)
  | none =>
  rw [h5] at h
  have hhard : hardChecksOk s = true := by
    rw [hardChecksOk]
    simp only [Bool.and_eq_true]
    exact ⟨⟨⟨⟨check_required_fields_none_iff.mp h1,
      by simpa using check_date_format_none_iff.mp h2⟩,
      by simpa using check_time_format_none_iff.mp h3⟩,
      by simpa using check_time_format_none_iff.mp h4⟩,
      check_timezone_none_iff.mp h5⟩
  match hw : check_title_length (s.title.getD "") with
  | some v =>
    rw [hw] at h
    have := Except.ok.inj h
    exact ⟨(Prod.mk.injEq _ _ _ _ ▸ this).1.symm,
      by simp [Option.toList, ← (Prod.mk.injEq _ _ _ _ ▸ this).2], hhard⟩
  | none =>
    rw [hw] at h
    have := Except.ok.inj h
    exact ⟨(Prod.mk.injEq _ _ _ _ ▸ this).1.symm,
      by simp [Option.toList, ← (Prod.mk.injEq _ _ _ _ ▸ this).2], hhard⟩

/-! ### Inversion of the pipeline and rate-limiter helpers -/

theorem build_ok_inv {timestamps : List Int} {nowSec nowMin : Int}
    {prompt : Option String} {extracted : Slots} {e : GEvent}
    {w : List ValidationWarning} {timestamps' : List Int}
    (h : build_event_dict_from_prompt timestamps nowSec nowMin prompt extracted =
      (.ok (e, w), timestamps')) :
    e = assembledEvent extracted ∧
    hardChecksOk extracted = true ∧
    w = (check_title_length (extracted.title.getD "")).toList ++
      check_time_constraints nowMin (swappedStart extracted) (swappedEnd extracted) := by
  rw [build_event_dict_from_prompt] at h
  match h1 : validate_and_sanitize timestamps nowSec prompt with
  | (.error err, ts2) =>
    rw [h1] at h
    exact absurd h (by simp)
  | (.ok sp, ts2) =>
  rw [h1] at h
  match h2 : validate_event extracted with
  | .error err =>
    rw [h2] at h
    exact absurd h (by simp)
  | .ok (ev, wv) =>
    rw [h2] at h
    obtain ⟨hev, hwv, hhard⟩ := validate_event_ok_inv h2
    subst hev
    simp only [sanity_check_event] at h
    have hok := (Prod.mk.injEq _ _ _ _ ▸ h).1
    have := Except.ok.inj hok
    have he : e = assembledEvent ev := ((Prod.mk.injEq _ _ _ _ ▸ this).1).symm
    have hw : w = wv ++ check_time_constraints nowMin (swappedStart ev) (swappedEnd ev) :=
      ((Prod.mk.injEq _ _ _ _ ▸ this).2).symm
    exact ⟨he, hhard, by rw [hw, hwv]⟩

theorem check_rate_limit_replicate_lt {k : Nat} {now : Int}
    (hk : k < RATE_LIMIT_REQUESTS) :
    check_rate_limit (List.replicate k now) now = (none, List.replicate (k + 1) now) := by
  rw [check_rate_limit]
  have hfil : (List.replicate k now).filter (fun ts => decide (now - RATE_LIMIT_WINDOW_SECONDS < ts)) =
      List.replicate k now := by
    rw [List.filter_replicate, if_pos]
    simp [RATE_LIMIT_WINDOW_SECONDS]
  simp only [hfil, List.length_replicate]
  rw [if_neg (by omega)]
  rw [← List.replicate_succ' k now]

theorem admitIter_replicate (now : Int) : ∀ (j k : Nat),
    j + k ≤ RATE_LIMIT_REQUESTS →
    admitIter j (List.replicate k now) now = some (List.replicate (j + k) now) := by
  intro j
  induction j with
  | zero => intro k _; simp [admitIter]
  | succ n ih =>
    intro k hk
    rw [admitIter, check_rate_limit_replicate_lt (by omega)]
    show admitIter n (List.replicate (k + 1) now) now = _
    rw [ih (k + 1) (by omega)]
    have harith : n + (k + 1) = n + 1 + k := by omega
    rw [harith]

theorem replicate_headD {now : Int} :
    (List.replicate RATE_LIMIT_REQUESTS now).headD 0 = now := by
  simp [RATE_LIMIT_REQUESTS, List.replicate_succ]

theorem check_rate_limit_full (now : Int) :
    check_rate_limit (List.replicate RATE_LIMIT_REQUESTS now) now =
      (some (.rateLimitExceeded s!"Rate limit: {(15 : Nat)} requests in {(60 : Int)}s"
        s!"Too many requests. Please wait {(61 : Int)} seconds."),
       List.replicate RATE_LIMIT_REQUESTS now) := by
  rw [check_rate_limit]
  have hfil : (List.replicate RATE_LIMIT_REQUESTS now).filter
      (fun ts => decide (now - RATE_LIMIT_WINDOW_SECONDS < ts)) =
      List.replicate RATE_LIMIT_REQUESTS now := by
    rw [List.filter_replicate, if_pos]
    simp [RATE_LIMIT_WINDOW_SECONDS]
  simp only [hfil, List.length_replicate]
  rw [if_pos (le_refl _)]
  rw [replicate_headD]
  have harith : now - (now - RATE_LIMIT_WINDOW_SECONDS) + 1 = (61 : Int) := by
    simp only [RATE_LIMIT_WINDOW_SECONDS]
    omega
  rw [harith]
  simp [RATE_LIMIT_REQUESTS, RATE_LIMIT_WINDOW_SECONDS]

theorem validate_and_sanitize_too_long {timestamps : List Int} {now : Int}
    {input : Option String} (h : MAX_INPUT_LENGTH < (sanitize input).length) :
    validate_and_sanitize timestamps now input =
      (.error (.inputTooLong s!"Input is {(sanitize input).length} characters"
        s!"Please keep your request under {MAX_INPUT_LENGTH} characters."), timestamps) := by
  rw [validate_and_sanitize]
  have hcl : check_length (sanitize input) =
      some (.inputTooLong s!"Input is {(sanitize input).length} characters"
        s!"Please keep your request under {MAX_INPUT_LENGTH} characters.") := by
    simp only [check_length]
    rw [if_pos h]
  rw [hcl]

/-! ### The claims -/

/-- C7: for every input string, the output of `sanitize` contains none of
the control-character code points 0x00-0x08, 0x0b, 0x0c, 0x0e-0x1f, 0x7f,
and contains no run of two or more consecutive whitespace characters. -/
theorem c7_sanitize_output_clean (s : String) :
    (∀ c ∈ (sanitizeStr s).data, isCtrl c = false) ∧
    List.Chain' (fun a b => ¬(isWs a = true ∧ isWs b = true)) (sanitizeStr s).data := by
  constructor
  · intro c hc
    have hc' : c ∈ collapseWs (removeCtrl (stripChars s.data)) := hc
    rcases collapseWsAux_mem hc' with h | h
    · rw [h]; decide
    · have := (List.mem_filter.mp h).2
      simpa using this
  · exact collapseWsAux_chain' false _

theorem c7_witness : isCtrl 'a' = false :=
  (c7_sanitize_output_clean "a\x00 b").1 'a' (by decide)

/-- C8 as stated is false: because `strip()` runs before control characters
are removed, the input `"a \x00"` sanitizes to `"a "`, whose last character
is whitespace. -/
theorem c8_counterexample :
    sanitize (some "a \x00") = "a " ∧
    (sanitize (some "a \x00")).data.getLast? = some ' ' ∧
    isWs ' ' = true := by
  refine ⟨?_, ?_, ?_⟩ <;> decide

/-- C8 (amended): `sanitize` never fails (it is a total function) and a
null/absent input yields the empty string; for every input containing none
of the stripped control characters, the output begins and ends with a
non-whitespace character (or is empty).  (When the input does contain
control characters, their removal — which happens after the trim — can
expose leading or trailing whitespace.) -/
theorem c8_sanitize_trimmed_amended :
    sanitize none = "" ∧
    ∀ s : String, (∀ c ∈ s.data, isCtrl c = false) →
      (∀ c, (sanitizeStr s).data.head? = some c → isWs c = false) ∧
      (∀ c, (sanitizeStr s).data.getLast? = some c → isWs c = false) := by
  refine ⟨rfl, ?_⟩
  intro s hs
  have hrm : removeCtrl (stripChars s.data) = stripChars s.data := by
    rw [removeCtrl, List.filter_eq_self]
    intro a ha
    simp [hs a (stripChars_mem ha)]
  constructor
  · intro c hc
    have h2 : (collapseWs (removeCtrl (stripChars s.data))).head? = some c := hc
    rw [hrm] at h2
    exact collapseWs_head_not_ws (fun d hd => stripChars_head_not_ws hd) h2
  · intro c hc
    have h2 : (collapseWs (removeCtrl (stripChars s.data))).getLast? = some c := hc
    rw [hrm] at h2
    exact collapseWsAux_getLast_not_ws (fun d hd => stripChars_getLast_not_ws hd) h2

theorem c8_witness : isWs 'h' = false :=
  ((c8_sanitize_trimmed_amended.2 "hi" (by decide)).1) 'h' (by decide)

/-- C1: whenever the sanitized input is longer than `MAX_INPUT_LENGTH`,
`validate_and_sanitize` fails with `InputTooLong` and returns the
rate-limiter timestamp list unchanged — for the fresh validator, a
subsequent run of `RATE_LIMIT_REQUESTS` admissions all succeed, so the
oversized request consumed no rate-limit slot. -/
theorem c1_oversized_input_no_rate_slot :
    (∀ (timestamps : List Int) (now : Int) (input : Option String),
      MAX_INPUT_LENGTH < (sanitize input).length →
      validate_and_sanitize timestamps now input =
        (.error (.inputTooLong s!"Input is {(sanitize input).length} characters"
          s!"Please keep your request under {MAX_INPUT_LENGTH} characters."), timestamps)) ∧
    (∀ (now : Int) (input : Option String),
      MAX_INPUT_LENGTH < (sanitize input).length →
      admitIter RATE_LIMIT_REQUESTS (validate_and_sanitize [] now input).2 now =
        some (List.replicate RATE_LIMIT_REQUESTS now)) := by
  constructor
  · intro timestamps now input h
    exact validate_and_sanitize_too_long h
  · intro now input h
    rw [validate_and_sanitize_too_long h]
    have := admitIter_replicate now RATE_LIMIT_REQUESTS 0 (by omega)
    simpa using this

set_option maxRecDepth 8000 in
theorem c1_witness :
    admitIter RATE_LIMIT_REQUESTS
      (validate_and_sanitize [] 0 (some (String.mk (List.replicate 501 'a')))).2 0 =
      some (List.replicate RATE_LIMIT_REQUESTS 0) :=
  c1_oversized_input_no_rate_slot.2 0 (some (String.mk (List.replicate 501 'a'))) (by decide)

/-- C2: from a fresh rate limiter, `RATE_LIMIT_REQUESTS` admissions at one
instant all succeed; the next call fails with `RateLimitExceeded` whose
wait time is `(oldestRemainingTimestamp - windowStart) + 1` seconds and is
at least 1 second; every call first prunes all timestamps at or before
`windowStart = now - RATE_LIMIT_WINDOW_SECONDS`; and once time has
advanced past the window the admission succeeds again. -/
theorem c2_rate_limiter_window :
    (∀ now : Int, admitIter RATE_LIMIT_REQUESTS [] now =
      some (List.replicate RATE_LIMIT_REQUESTS now)) ∧
    (∀ now : Int, ∃ internal wait,
      check_rate_limit (List.replicate RATE_LIMIT_REQUESTS now) now =
        (some (.rateLimitExceeded internal
          s!"Too many requests. Please wait {wait} seconds."),
         List.replicate RATE_LIMIT_REQUESTS now) ∧
      wait = ((List.replicate RATE_LIMIT_REQUESTS now).headD 0 -
        (now - RATE_LIMIT_WINDOW_SECONDS)) + 1 ∧
      1 ≤ wait) ∧
    (∀ (timestamps : List Int) (now : Int) (e : Option VErr) (timestamps' : List Int),
      check_rate_limit timestamps now = (e, timestamps') →
      ∀ t ∈ timestamps', now - RATE_LIMIT_WINDOW_SECONDS < t) ∧
    (∀ now nowLater : Int, now + RATE_LIMIT_WINDOW_SECONDS < nowLater →
      (check_rate_limit (List.replicate RATE_LIMIT_REQUESTS now) nowLater).1 = none) := by
  refine ⟨?_, ?_, ?_, ?_⟩
  · intro now
    have := admitIter_replicate now RATE_LIMIT_REQUESTS 0 (by omega)
    simpa using this
  · intro now
    refine ⟨s!"Rate limit: {(15 : Nat)} requests in {(60 : Int)}s", 61,
      check_rate_limit_full now, ?_, by norm_num⟩
    rw [replicate_headD]
    simp only [RATE_LIMIT_WINDOW_SECONDS]
    omega
  · intro timestamps now e timestamps' h t ht
    rw [check_rate_limit] at h
    by_cases hfull : RATE_LIMIT_REQUESTS ≤
        (timestamps.filter (fun ts => decide (now - RATE_LIMIT_WINDOW_SECONDS < ts))).length
    · rw [if_pos hfull] at h
      have hts : timestamps' =
          timestamps.filter (fun ts => decide (now - RATE_LIMIT_WINDOW_SECONDS < ts)) :=
        ((Prod.mk.injEq _ _ _ _ ▸ h).2).symm
      rw [hts] at ht
      have := (List.mem_filter.mp ht).2
      simpa using this
    · rw [if_neg hfull] at h
      have hts : timestamps' =
          timestamps.filter (fun ts => decide (now - RATE_LIMIT_WINDOW_SECONDS < ts)) ++ [now] :=
        ((Prod.mk.injEq _ _ _ _ ▸ h).2).symm
      rw [hts] at ht
      rcases List.mem_append.mp ht with hm | hm
      · have := (List.mem_filter.mp hm).2
        simpa using this
      · have : t = now := by simpa using hm
        rw [this]
        simp only [RATE_LIMIT_WINDOW_SECONDS]
        omega
  · intro now nowLater hlt
    rw [check_rate_limit]
    have hfil : (List.replicate RATE_LIMIT_REQUESTS now).filter
        (fun ts => decide (nowLater - RATE_LIMIT_WINDOW_SECONDS < ts)) = [] := by
      rw [List.filter_replicate, if_neg]
      simp only [decide_eq_true_eq]
      omega
    rw [hfil]
    rw [if_neg (by simp [RATE_LIMIT_REQUESTS])]

theorem c2_witness :
    (check_rate_limit (List.replicate RATE_LIMIT_REQUESTS 0) 61).1 = none :=
  c2_rate_limiter_window.2.2.2 0 61 (by simp [RATE_LIMIT_WINDOW_SECONDS])

/-- C4 as stated is false: the time regex's `$` matches before a trailing
newline and `int` strips whitespace, so `validate_event` accepts the start
value `"13:00\n"` — which is not of `HH:MM` form — instead of raising
`InvalidEventData` for it. -/
theorem c4_counterexample :
    validate_event
      { title := some "Meeting", date := some "2025-06-02", start := some "13:00\n",
        end_ := some "14:00", tz := some "UTC", location := none, notes := none,
        recurrence := none } =
      .ok ({ title := some "Meeting", date := some "2025-06-02",
             start := some "13:00\n", end_ := some "14:00", tz := some "UTC",
             location := none, notes := none, recurrence := none }, []) ∧
    ("13:00\n" : String).data.contains '\n' = true ∧
    ("13:00\n" : String).length ≠ 5 :=
  ⟨rfl, by decide, by decide⟩

/-- C4 (amended): `validate_event` raises exactly when a hard check fails,
in source order — missing/empty required field; a date not matching
`YYYY-MM-DD` (with the regex's one-optional-trailing-newline allowance) or
not a real calendar date (which also rejects the trailing-newline form);
a start/end time not matching `HH:MM` up to the same trailing-newline
allowance, or with hour outside [0,23] or minute outside [0,59] (naming
the offending field); an unknown timezone — and returns the slots
unchanged when every hard check passes. -/
theorem c4_validate_event_errors (s : Slots) :
    ((∃ w, validate_event s = .ok (s, w)) ↔ hardChecksOk s = true) ∧
    (requiredOk s = false →
      ∃ i, validate_event s = .error (.invalidEventData i
        "I couldn't understand all the details. Please include the event title, date, and times.")) ∧
    (requiredOk s = true →
      ¬(dateFormatOk (s.date.getD "") = true ∧ dateRealOk (s.date.getD "") = true) →
      ∃ i u, validate_event s = .error (.invalidEventData i u)) ∧
    (requiredOk s = true →
      (dateFormatOk (s.date.getD "") = true ∧ dateRealOk (s.date.getD "") = true) →
      ¬(timeFormatOk (s.start.getD "") = true ∧ timeRangeOk (s.start.getD "") = true) →
      ∃ i, validate_event s = .error (.invalidEventData i (timeNotUnderstoodMsg "start")) ∨
        validate_event s = .error (.invalidEventData i (timeInvalidMsg "start"))) ∧
    (requiredOk s = true →
      (dateFormatOk (s.date.getD "") = true ∧ dateRealOk (s.date.getD "") = true) →
      (timeFormatOk (s.start.getD "") = true ∧ timeRangeOk (s.start.getD "") = true) →
      ¬(timeFormatOk (s.end_.getD "") = true ∧ timeRangeOk (s.end_.getD "") = true) →
      ∃ i, validate_event s = .error (.invalidEventData i (timeNotUnderstoodMsg "end")) ∨
        validate_event s = .error (.invalidEventData i (timeInvalidMsg "end"))) ∧
    (requiredOk s = true →
      (dateFormatOk (s.date.getD "") = true ∧ dateRealOk (s.date.getD "") = true) →
      (timeFormatOk (s.start.getD "") = true ∧ timeRangeOk (s.start.getD "") = true) →
      (timeFormatOk (s.end_.getD "") = true ∧ timeRangeOk (s.end_.getD "") = true) →
      tzKnown (s.tz.getD "") = false →
      ∃ i, validate_event s = .error (.invalidTimezone i
        "Invalid timezone detected. Please try again.")) := by
  refine ⟨?_, ?_, ?_, ?_, ?_, ?_⟩
  · constructor
    · rintro ⟨w, hw⟩
      exact (validate_event_ok_inv hw).2.2
    · intro h
      exact ⟨_, validate_event_ok_of_hard h⟩
  · intro h
    obtain ⟨i, hi⟩ := check_required_fields_fail h
    exact ⟨i, by rw [validate_event, hi]⟩
  · intro h1 h2
    obtain ⟨i, u, hi⟩ := check_date_format_fail h2
    refine ⟨i, u, ?_⟩
    rw [validate_event, check_required_fields_none_iff.mpr h1, hi]
  · intro h1 h2 h3
    obtain ⟨i, hor⟩ := check_time_format_fail "start" h3
    refine ⟨i, ?_⟩
    rcases hor with hi | hi
    · exact Or.inl (by
        rw [validate_event, check_required_fields_none_iff.mpr h1,
          check_date_format_none_iff.mpr h2, hi])
    · exact Or.inr (by
        rw [validate_event, check_required_fields_none_iff.mpr h1,
          check_date_format_none_iff.mpr h2, hi])
  · intro h1 h2 h3 h4
    obtain ⟨i, hor⟩ := check_time_format_fail "end" h4
    refine ⟨i, ?_⟩
    rcases hor with hi | hi
    · exact Or.inl (by
        rw [validate_event, check_required_fields_none_iff.mpr h1,
          check_date_format_none_iff.mpr h2, check_time_format_none_iff.mpr h3, hi])
    · exact Or.inr (by
        rw [validate_event, check_required_fields_none_iff.mpr h1,
          check_date_format_none_iff.mpr h2, check_time_format_none_iff.mpr h3, hi])
  · intro h1 h2 h3 h4 h5
    obtain ⟨i, hi⟩ := check_timezone_fail h5
    refine ⟨i, ?_⟩
    rw [validate_event, check_required_fields_none_iff.mpr h1,
      check_date_format_none_iff.mpr h2, check_time_format_none_iff.mpr h3,
      check_time_format_none_iff.mpr h4, hi]

theorem c4_witness :
    ∃ i, validate_event
      { title := some "Meeting", date := some "2025-06-02", start := some "13:00",
        end_ := some "14:00", tz := some "Mars/Noctis", location := none,
        notes := none, recurrence := none } =
      .error (.invalidTimezone i "Invalid timezone detected. Please try again.") :=
  (c4_validate_event_errors _).2.2.2.2.2 (by decide) (by decide) (by decide)
    (by decide) (by decide)

/-- C5: `check_time_constraints` never raises (it is a total function into
warning lists); it returns the far-future warning exactly when the start
instant lies more than `MAX_FUTURE_DAYS` past `now` (stated as 2 years in
the message), the duration warning exactly when the duration exceeds
`MAX_DURATION_DAYS`, both when both hold and neither otherwise — and in
particular performs no end-before-start check. -/
theorem c5_check_time_constraints_spec (now startDt endDt : Int) :
    ((⟨.farFuture 2⟩ : ValidationWarning) ∈ check_time_constraints now startDt endDt ↔
      now + (MAX_FUTURE_DAYS : Int) * 1440 < startDt) ∧
    ((∃ d, (⟨.durationDays d⟩ : ValidationWarning) ∈
        check_time_constraints now startDt endDt) ↔
      (MAX_DURATION_DAYS : Int) * 1440 < endDt - startDt) ∧
    check_time_constraints now startDt endDt =
      (if now + (MAX_FUTURE_DAYS : Int) * 1440 < startDt then
        [⟨.farFuture 2⟩] else []) ++
      (if (MAX_DURATION_DAYS : Int) * 1440 < endDt - startDt then
        [⟨.durationDays ((endDt - startDt).fdiv 1440)⟩] else []) := by
  have hyears : MAX_FUTURE_DAYS / 365 = 2 := by decide
  refine ⟨?_, ?_, ?_⟩
  · by_cases h1 : now + (MAX_FUTURE_DAYS : Int) * 1440 < startDt <;>
      by_cases h2 : (MAX_DURATION_DAYS : Int) * 1440 < endDt - startDt <;>
      simp [check_time_constraints, h1, h2, hyears]
  · by_cases h1 : now + (MAX_FUTURE_DAYS : Int) * 1440 < startDt <;>
      by_cases h2 : (MAX_DURATION_DAYS : Int) * 1440 < endDt - startDt <;>
      simp [check_time_constraints, h1, h2, hyears]
  · by_cases h1 : now + (MAX_FUTURE_DAYS : Int) * 1440 < startDt <;>
      by_cases h2 : (MAX_DURATION_DAYS : Int) * 1440 < endDt - startDt <;>
      simp [check_time_constraints, h1, h2, hyears]

theorem c5_witness : check_time_constraints 0 0 0 = [] := by
  have h := (c5_check_time_constraints_spec 0 0 0).2.2
  simpa using h

/-! ### Helpers for the pipeline claims -/

theorem hardChecks_time_ranges {s : Slots} (h : hardChecksOk s = true) :
    timeRangeOk (s.start.getD "") = true ∧ timeRangeOk (s.end_.getD "") = true := by
  rw [hardChecksOk] at h
  simp only [Bool.and_eq_true] at h
  obtain ⟨⟨⟨⟨_, _⟩, h3⟩, h4⟩, _⟩ := h
  exact ⟨h3.2, h4.2⟩

theorem parseTimeMinutes_bounds {t : String} (h : timeRangeOk t = true) :
    0 ≤ parseTimeMinutes t ∧ parseTimeMinutes t ≤ 1439 := by
  rw [timeRangeOk, Bool.and_eq_true, decide_eq_true_eq, decide_eq_true_eq] at h
  rw [parseTimeMinutes]
  omega

theorem slot_dt_diff (ev : Slots) :
    slot_end_dt ev - slot_start_dt ev =
      parseTimeMinutes (ev.end_.getD "") - parseTimeMinutes (ev.start.getD "") := by
  simp only [slot_end_dt, slot_start_dt, slotInstant]
  ring

theorem swappedStart_le_swappedEnd (ev : Slots) :
    swappedStart ev ≤ swappedEnd ev := by
  rw [swappedStart, swappedEnd]
  split_ifs with h <;> omega

theorem swapped_duration_le {ev : Slots} (h : hardChecksOk ev = true) :
    swappedEnd ev - swappedStart ev ≤ 1439 := by
  obtain ⟨hs, he⟩ := hardChecks_time_ranges h
  obtain ⟨hs0, hs1⟩ := parseTimeMinutes_bounds hs
  obtain ⟨he0, he1⟩ := parseTimeMinutes_bounds he
  have hd := slot_dt_diff ev
  rw [swappedStart, swappedEnd]
  split_ifs with hlt <;> omega

theorem title_warning_mem {t : String} {x : ValidationWarning}
    (hx : x ∈ (check_title_length t).toList) :
    ∃ n, x = ⟨.titleTooLong n MAX_TITLE_LENGTH⟩ := by
  simp only [check_title_length] at hx
  by_cases h : MAX_TITLE_LENGTH < t.length
  · rw [if_pos h] at hx
    simp only [Option.toList, List.mem_singleton] at hx
    exact ⟨_, hx⟩
  · rw [if_neg h] at hx
    simp [Option.toList] at hx

theorem no_duration_warning_of_small {now s e : Int}
    (h : e - s ≤ (MAX_DURATION_DAYS : Int) * 1440) (d : Int) :
    (⟨.durationDays d⟩ : ValidationWarning) ∉ check_time_constraints now s e := by
  have h2 : ¬((MAX_DURATION_DAYS : Int) * 1440 < e - s) := by omega
  by_cases h1 : now + (MAX_FUTURE_DAYS : Int) * 1440 < s <;>
    simp [check_time_constraints, h1, h2]

/-! ### The pipeline claims -/

/-- C3: every event emitted by a successful pipeline run satisfies
`start ≤ end`; when the parsed end instant precedes the start instant the
two values are exchanged silently — the run still succeeds and the warning
list is exactly the title warning plus the time-constraint warnings, with
nothing added for the swap — and in particular `start=14:00, end=13:00` on
one date yields an event with `start < end` and the values exchanged. -/
theorem c3_start_le_end_swap :
    (∀ (timestamps : List Int) (nowSec nowMin : Int) (prompt : Option String)
      (extracted : Slots) (e : GEvent) (w : List ValidationWarning)
      (timestamps' : List Int),
      build_event_dict_from_prompt timestamps nowSec nowMin prompt extracted =
        (.ok (e, w), timestamps') →
      e.start ≤ e.end_) ∧
    (∀ (timestamps : List Int) (nowSec nowMin : Int) (prompt : Option String)
      (extracted : Slots) (e : GEvent) (w : List ValidationWarning)
      (timestamps' : List Int),
      build_event_dict_from_prompt timestamps nowSec nowMin prompt extracted =
        (.ok (e, w), timestamps') →
      slot_end_dt extracted < slot_start_dt extracted →
      e.start = slot_end_dt extracted ∧ e.end_ = slot_start_dt extracted ∧
      w = (check_title_length (extracted.title.getD "")).toList ++
        check_time_constraints nowMin e.start e.end_) ∧
    ((build_event_dict_from_prompt [] 0 29147820 (some "x")
      { title := some "Meeting", date := some "2025-06-02", start := some "14:00",
        end_ := some "13:00", tz := some "UTC", location := none, notes := none,
        recurrence := none }).1 =
      .ok ({ summary := "Meeting", description := "Added via AI Scheduler",
             start := 29147820, end_ := 29147880, recurrence := none }, []) ∧
      (29147820 : Int) < 29147880) := by
  refine ⟨?_, ?_, ?_, ?_⟩
  · intro timestamps nowSec nowMin prompt extracted e w timestamps' h
    obtain ⟨he, _, _⟩ := build_ok_inv h
    rw [he]
    exact swappedStart_le_swappedEnd extracted
  · intro timestamps nowSec nowMin prompt extracted e w timestamps' h hswap
    obtain ⟨he, _, hw⟩ := build_ok_inv h
    have hstart : e.start = slot_end_dt extracted := by
      rw [he]
      show swappedStart extracted = _
      rw [swappedStart, if_pos hswap]
    have hend : e.end_ = slot_start_dt extracted := by
      rw [he]
      show swappedEnd extracted = _
      rw [swappedEnd, if_pos hswap]
    refine ⟨hstart, hend, ?_⟩
    rw [hw]
    have h1 : swappedStart extracted = e.start := by
      rw [hstart, swappedStart, if_pos hswap]
    have h2 : swappedEnd extracted = e.end_ := by
      rw [hend, swappedEnd, if_pos hswap]
    rw [h1, h2]
  · rfl
  · decide

theorem c3_witness : (29147820 : Int) ≤ 29147880 :=
  c3_start_le_end_swap.1 [] 0 29147820 (some "x")
    { title := some "Meeting", date := some "2025-06-02", start := some "14:00",
      end_ := some "13:00", tz := some "UTC", location := none, notes := none,
      recurrence := none }
    { summary := "Meeting", description := "Added via AI Scheduler",
      start := 29147820, end_ := 29147880, recurrence := none } [] [0] (by rfl)

/-- C9: for every validated slot map, the assembled event's description is
the notes value when the notes slot is provided and the fixed string
`"Added via AI Scheduler"` otherwise, with `"\nLocation: {location}"`
appended exactly when the location slot is present and non-empty, and the
summary is the title unchanged. -/
theorem c9_description_and_summary :
    ∀ (timestamps : List Int) (nowSec nowMin : Int) (prompt : Option String)
      (extracted : Slots) (e : GEvent) (w : List ValidationWarning)
      (timestamps' : List Int),
      build_event_dict_from_prompt timestamps nowSec nowMin prompt extracted =
        (.ok (e, w), timestamps') →
      e.summary = extracted.title.getD "" ∧
      e.description =
        (if (extracted.location.getD "").isEmpty then
          (match extracted.notes with
            | some n => n
            | none => "Added via AI Scheduler")
        else
          (match extracted.notes with
            | some n => n
            | none => "Added via AI Scheduler") ++
            "\nLocation: " ++ extracted.location.getD "") := by
  intro timestamps nowSec nowMin prompt extracted e w timestamps' h
  obtain ⟨he, _, _⟩ := build_ok_inv h
  rw [he]
  constructor
  · rfl
  · show eventDescription extracted = _
    simp only [eventDescription]
    by_cases hl : (extracted.location.getD "").isEmpty <;> simp [hl]

theorem c9_witness :
    ("Meeting" : String) = "Meeting" ∧ ("Bring slides" : String) = "Bring slides" :=
  c9_description_and_summary [] 0 29147820 (some "x")
    { title := some "Meeting", date := some "2025-06-02", start := some "13:00",
      end_ := some "14:00", tz := some "UTC", location := none,
      notes := some "Bring slides", recurrence := none }
    { summary := "Meeting", description := "Bring slides",
      start := 29147820, end_ := 29147880, recurrence := none } [] [0] (by rfl)

/-- C6 as stated is false: the guard only prevents prepending to a value
that already starts with `RRULE:` and never removes a duplicated prefix, so
the recurrence value `"RRULE:RRULE:FREQ=DAILY"` is emitted still carrying
the prefix twice rather than exactly once. -/
theorem c6_counterexample :
    (build_event_dict_from_prompt [] 0 29147820 (some "x")
      { title := some "Meeting", date := some "2025-06-02", start := some "13:00",
        end_ := some "14:00", tz := some "UTC", location := none, notes := none,
        recurrence := some "RRULE:RRULE:FREQ=DAILY" }).1 =
      .ok ({ summary := "Meeting", description := "Added via AI Scheduler",
             start := 29147820, end_ := 29147880,
             recurrence := some ["RRULE:RRULE:FREQ=DAILY"] }, []) ∧
    rruleUpperStarts "RRULE:RRULE:FREQ=DAILY" = true ∧
    rruleUpperStarts (String.mk ("RRULE:RRULE:FREQ=DAILY".data.drop 6)) = true :=
  ⟨rfl, by decide, by decide⟩

/-- C6 (amended): a truthy recurrence slot is always emitted as a
one-element sequence, and the `RRULE:` prefix is prepended exactly when
the value does not already start with it (case-insensitively) — so the
spec's two round trips hold: an unprefixed rule gains the prefix once and
an already singly-prefixed rule is returned unchanged. -/
theorem c6_recurrence_normalization :
    (∀ (timestamps : List Int) (nowSec nowMin : Int) (prompt : Option String)
      (extracted : Slots) (e : GEvent) (w : List ValidationWarning)
      (timestamps' : List Int) (r : String),
      build_event_dict_from_prompt timestamps nowSec nowMin prompt extracted =
        (.ok (e, w), timestamps') →
      extracted.recurrence = some r → r ≠ "" →
      e.recurrence =
        some [if rruleUpperStarts r then r else "RRULE:" ++ r]) ∧
    (build_event_dict_from_prompt [] 0 29147820 (some "x")
      { title := some "Meeting", date := some "2025-06-02", start := some "13:00",
        end_ := some "14:00", tz := some "UTC", location := none, notes := none,
        recurrence := some "FREQ=WEEKLY;BYDAY=MO" }).1 =
      .ok ({ summary := "Meeting", description := "Added via AI Scheduler",
             start := 29147820, end_ := 29147880,
             recurrence := some ["RRULE:FREQ=WEEKLY;BYDAY=MO"] }, []) ∧
    (build_event_dict_from_prompt [] 0 29147820 (some "x")
      { title := some "Meeting", date := some "2025-06-02", start := some "13:00",
        end_ := some "14:00", tz := some "UTC", location := none, notes := none,
        recurrence := some "RRULE:FREQ=WEEKLY;BYDAY=MO" }).1 =
      .ok ({ summary := "Meeting", description := "Added via AI Scheduler",
             start := 29147820, end_ := 29147880,
             recurrence := some ["RRULE:FREQ=WEEKLY;BYDAY=MO"] }, []) := by
  refine ⟨?_, rfl, rfl⟩
  intro timestamps nowSec nowMin prompt extracted e w timestamps' r h hr hne
  obtain ⟨he, _, _⟩ := build_ok_inv h
  rw [he]
  show eventRecurrence extracted = _
  have hempty : r.isEmpty = false := by
    rw [Bool.eq_false_iff]
    intro hcon
    exact hne ((String.isEmpty_iff r).mp hcon)
  simp only [eventRecurrence, hr, hempty]
  simp

theorem c6_witness :
    (some ["RRULE:FREQ=WEEKLY;BYDAY=MO"] : Option (List String)) =
      some [if rruleUpperStarts "FREQ=WEEKLY;BYDAY=MO"
        then "FREQ=WEEKLY;BYDAY=MO" else "RRULE:" ++ "FREQ=WEEKLY;BYDAY=MO"] :=
  c6_recurrence_normalization.1 [] 0 29147820 (some "x")
    { title := some "Meeting", date := some "2025-06-02", start := some "13:00",
      end_ := some "14:00", tz := some "UTC", location := none, notes := none,
      recurrence := some "FREQ=WEEKLY;BYDAY=MO" }
    { summary := "Meeting", description := "Added via AI Scheduler",
      start := 29147820, end_ := 29147880,
      recurrence := some ["RRULE:FREQ=WEEKLY;BYDAY=MO"] } [] [0]
    "FREQ=WEEKLY;BYDAY=MO" (by rfl) rfl (by decide)

/-- C10: in every successful pipeline run both instants are built from the
single extracted date, so after the auto-swap the duration is below
`MAX_DURATION_DAYS` and the excessive-duration warning never appears in
the returned warning list. -/
theorem c10_duration_warning_absent :
    ∀ (timestamps : List Int) (nowSec nowMin : Int) (prompt : Option String)
      (extracted : Slots) (e : GEvent) (w : List ValidationWarning)
      (timestamps' : List Int),
      build_event_dict_from_prompt timestamps nowSec nowMin prompt extracted =
        (.ok (e, w), timestamps') →
      ∀ d : Int, (⟨.durationDays d⟩ : ValidationWarning) ∉ w := by
  intro timestamps nowSec nowMin prompt extracted e w timestamps' h d hd
  obtain ⟨_, hhard, hw⟩ := build_ok_inv h
  rw [hw] at hd
  rcases List.mem_append.mp hd with hm | hm
  · obtain ⟨n, hn⟩ := title_warning_mem hm
    exact absurd hn (by simp)
  · have h7 : ((MAX_DURATION_DAYS : Nat) : Int) = 7 := by norm_num [MAX_DURATION_DAYS]
    have hle := swapped_duration_le hhard
    have hsmall : swappedEnd extracted - swappedStart extracted ≤
        (MAX_DURATION_DAYS : Int) * 1440 := by omega
    exact no_duration_warning_of_small hsmall d hm

theorem c10_witness :
    (⟨.durationDays 5⟩ : ValidationWarning) ∉ ([] : List ValidationWarning) :=
  c10_duration_warning_absent [] 0 29147820 (some "x")
    { title := some "Meeting", date := some "2025-06-02", start := some "13:00",
      end_ := some "14:00", tz := some "UTC", location := none, notes := none,
      recurrence := none }
    { summary := "Meeting", description := "Added via AI Scheduler",
      start := 29147820, end_ := 29147880, recurrence := none } [] [0] (by rfl) 5
